import Mathlib

/-! The request handlers of `main.go` of k8-auto-dns.

A shallow embedding of `healthHandler` and `proxyHandler` from `main.go`.

Go strings are modelled by Lean strings.  The only separator the program
splits on is the one-byte ASCII character `.`, so splitting by characters
and splitting by bytes agree.

The handlers are effectful: they call the cluster registry, write on the
`http.ResponseWriter`, log, and drive a reverse proxy.  Each handler is
embedded as a pure function that returns the ordered list of the effects it
performs; the answers of the outside world (the registry's answer to a
`Get`, the outcome of the proxy's round trip) are parameters.
-/

namespace K8AutoDns

/-! ## The parts of the Go standard library the handlers use -/

/-- Position of the first occurrence of the character `c` in `s`, as
`strings.Index(s, sep)` computes it for a one-character `sep`; `none` stands
for Go's `-1`. -/
def Index : List Char → Char → Option Nat
  | [], _ => none
  | x :: xs, c => if x = c then some 0 else (Index xs c).map (fun m => m + 1)

/-- Number of occurrences of the character `c` in `s`, as
`strings.Count(s, sep)` computes it for a one-character `sep`. -/
def Count : List Char → Char → Nat
  | [], _ => 0
  | x :: xs, c => if x = c then Count xs c + 1 else Count xs c

/-- The loop of `strings.genSplit` (with `sepSave = 0`): `fuel` is the number
`n - 1 - i` of iterations left.  Each iteration looks for the separator; if
there is none the loop breaks, otherwise `s[:m]` is stored and the loop goes
on with `s[m+len(sep):]`.  After the loop the rest of `s` is stored. -/
def genSplitLoop : Nat → List Char → Char → List (List Char)
  | 0, s, _ => [s]
  | fuel + 1, s, c =>
    match Index s c with
    | none => [s]
    | some m => s.take m :: genSplitLoop fuel (s.drop (m + 1)) c

/-- Go's `strings.genSplit(s, sep, 0, -1)` for a one-character `sep`:
`n = Count(s, sep) + 1`, capped at `len(s) + 1`, then the loop runs while
`i < n - 1`. -/
def genSplit (s : List Char) (c : Char) : List (List Char) :=
  let n := Count s c + 1
  let n := if n > s.length + 1 then s.length + 1 else n
  genSplitLoop (n - 1) s c

/-- Go's `strings.Split(s, sep)` for a one-character separator. -/
def Split (s : String) (sep : Char) : List String :=
  (genSplit s.data sep).map String.mk

/-- Go's `strings.Join(elems, sep)`: the empty string for no element, the
element itself for one, otherwise the first element followed by `sep ++ e`
for every further element `e`. -/
def Join : List String → String → String
  | [], _ => ""
  | [a], _ => a
  | a :: rest, sep => rest.foldl (fun b e => b ++ sep ++ e) a

/-- The two fields of `url.URL` that `proxyHandler` sets. -/
structure URL where
  Scheme : String
  Host : String
  deriving DecidableEq

/-- The target a URL denotes: its scheme followed by `://` followed by its
host field. -/
def URL.render (u : URL) : String :=
  u.Scheme ++ "://" ++ u.Host

/-- An inbound `http.Request`, with the fields a handler can look at. -/
structure Request where
  Method : String
  Path : String
  Host : String
  Header : List (String × String)
  Body : String
  deriving DecidableEq

/-- The response an upstream service gave to a forwarded request. -/
structure UpstreamResponse where
  StatusCode : Nat
  Body : String
  deriving DecidableEq

/-- A Go `error`, identified with its message. -/
abbrev GoError := String

/-- The effects a handler performs, in the order of the source.
* `logPrintf line`: `log.Printf`, with the formatted line;
* `registryGet ns name`:
  `clientset.CoreV1().Services(ns).Get(ctx, name, v1.GetOptions{})`;
* `httpError msg code`: `http.Error(w, msg, code)`, which answers with status
  `code` and the plain-text message `msg`;
* `writeHeader code`: `w.WriteHeader(code)`;
* `write data`: `w.Write(data)`;
* `forward target r`: the reverse proxy's attempt to send `r` to `target`. -/
inductive Effect where
  | logPrintf (line : String)
  | registryGet (ns name : String)
  | httpError (msg : String) (code : Nat)
  | writeHeader (code : Nat)
  | write (data : String)
  | forward (target : URL) (r : Request)
  deriving DecidableEq

/-- The constant `http.StatusOK`. -/
def StatusOK : Nat := 200
/-- The constant `http.StatusBadRequest`. -/
def StatusBadRequest : Nat := 400
/-- The constant `http.StatusNotFound`. -/
def StatusNotFound : Nat := 404
/-- The constant `http.StatusServiceUnavailable`. -/
def StatusServiceUnavailable : Nat := 503

/-- The registry as the handler sees it: the error returned by
`Services(ns).Get(ctx, name, ...)`, `none` for Go's `nil`.  The service
object returned next to it is dropped by the handler. -/
abbrev Registry := String → String → Option GoError

/-- The outcome of the proxy's round trip to a target: the upstream's
response, or a transport error. -/
abbrev RoundTripper := URL → Request → Except GoError UpstreamResponse

/-- A `httputil.ReverseProxy` as `proxyHandler` sets it up: the single target
given to `NewSingleHostReverseProxy` and the `ErrorHandler` field. -/
structure ReverseProxy where
  Target : URL
  ErrorHandler : Request → GoError → List Effect

/-- The call `proxy.ServeHTTP(w, r)`: one forward attempt to the configured
target; the upstream's response is copied to the client, a transport error is
handed to the proxy's `ErrorHandler`. -/
def ReverseProxy.ServeHTTP (p : ReverseProxy) (rt : RoundTripper) (r : Request) :
    List Effect :=
  Effect.forward p.Target r ::
    match rt p.Target r with
    | .ok res => [Effect.writeHeader res.StatusCode, Effect.write res.Body]
    | .error err => p.ErrorHandler r err

/-! ## The handlers of `main.go` -/

/-- The process state a handler runs in: the `clientset` of `Server`, seen
through the answers it gives. -/
structure Server where
  clientset : Registry

/-- The function `healthHandler` of `main.go`. -/
def healthHandler (_s : Server) (_r : Request) : List Effect :=
  [Effect.writeHeader StatusOK, Effect.write "healthy"]

/-- The closure installed as `proxy.ErrorHandler` in `proxyHandler`. -/
def proxyErrorHandler (_r : Request) (err : GoError) : List Effect :=
  [Effect.logPrintf ("Proxy error: " ++ err),
   Effect.httpError "service unavailable" StatusServiceUnavailable]

/-- The string `fmt.Sprintf("http://%s.%s.svc.cluster.local:80", subdomain, ns)`. -/
def targetURL (subdomain ns : String) : String :=
  "http://" ++ subdomain ++ "." ++ ns ++ ".svc.cluster.local:80"

/-- The function `proxyHandler` of `main.go`.  `podNamespace` is the value of
`os.Getenv("POD_NAMESPACE")`, `rt` the outcome of the proxy's round trip. -/
def proxyHandler (s : Server) (podNamespace : String) (rt : RoundTripper)
    (r : Request) : List Effect :=
  let host := r.Host
  match Split host '.' with
  | [] => [Effect.httpError "invalid host header" StatusBadRequest]
  | subdomain :: _ =>
    Effect.logPrintf ("Incoming request for " ++ subdomain) ::
    Effect.registryGet podNamespace subdomain ::
    match s.clientset podNamespace subdomain with
    | some err =>
      [Effect.logPrintf ("Service " ++ subdomain ++ " not found: " ++ err),
       Effect.httpError "Service not found" StatusNotFound]
    | none =>
      let proxy : ReverseProxy :=
        { Target := { Scheme := "http", Host := targetURL subdomain podNamespace },
          ErrorHandler := proxyErrorHandler }
      proxy.ServeHTTP rt r

/-- The routing key of a Host header: `parts[0]` of the split, when there is
one. -/
def routingKey (host : String) : Option String :=
  (Split host '.').head?

/-! ## Projections of an effect list -/

/-- The registry queries among the effects, as (namespace, name) pairs. -/
def queries : List Effect → List (String × String)
  | [] => []
  | Effect.registryGet ns name :: es => (ns, name) :: queries es
  | _ :: es => queries es

/-- The forward attempts among the effects, by target. -/
def forwards : List Effect → List URL
  | [] => []
  | Effect.forward t _ :: es => t :: forwards es
  | _ :: es => forwards es

/-- The effects on the response writer. -/
def responses : List Effect → List Effect
  | [] => []
  | Effect.httpError msg code :: es => Effect.httpError msg code :: responses es
  | Effect.writeHeader code :: es => Effect.writeHeader code :: responses es
  | Effect.write data :: es => Effect.write data :: responses es
  | _ :: es => responses es



/-- The text `sep ++ y` for every element `y`, in order: what `strings.Join`
puts after the first element. -/
def glue (sep : List Char) : List (List Char) → List Char
  | [] => []
  | y :: ys => sep ++ y ++ glue sep ys

/-! ## Facts about the library functions -/

theorem Index_eq_none {s : List Char} {c : Char} (h : c ∉ s) : Index s c = none := by
  induction s with
  | nil => rfl
  | cons x xs ih =>
    have hx : x ≠ c := fun e => h (by simp [e])
    have hxs : c ∉ xs := fun e => h (by simp [e])
    simp [Index, hx, ih hxs]

theorem Index_append_sep {k : List Char} {c : Char} (h : c ∉ k) (rest : List Char) :
    Index (k ++ c :: rest) c = some k.length := by
  induction k with
  | nil => simp [Index]
  | cons x xs ih =>
    have hx : x ≠ c := fun e => h (by simp [e])
    have hxs : c ∉ xs := fun e => h (by simp [e])
    simp [Index, hx, ih hxs]

theorem Index_some_split {s : List Char} {c : Char} {m : Nat} (h : Index s c = some m) :
    s = s.take m ++ c :: s.drop (m + 1) := by
  induction s generalizing m with
  | nil => simp [Index] at h
  | cons x xs ih =>
    by_cases hx : x = c
    · simp [Index, hx] at h
      subst h
      simp [hx]
    · simp only [Index, hx, if_false, Option.map_eq_some'] at h
      obtain ⟨m', hm', rfl⟩ := h
      have := ih hm'
      simp only [List.take_succ_cons, List.drop_succ_cons, List.cons_append]
      rw [← this]

theorem Count_le_length (s : List Char) (c : Char) : Count s c ≤ s.length := by
  induction s with
  | nil => simp [Count]
  | cons x xs ih =>
    simp only [Count, List.length_cons]
    split <;> omega

theorem Count_append_sep (k rest : List Char) (c : Char) :
    1 ≤ Count (k ++ c :: rest) c := by
  induction k with
  | nil => simp [Count]
  | cons x xs ih =>
    simp only [List.cons_append, Count]
    split
    · omega
    · exact ih

theorem Count_eq_zero {s : List Char} {c : Char} (h : c ∉ s) : Count s c = 0 := by
  induction s with
  | nil => rfl
  | cons x xs ih =>
    have hx : x ≠ c := fun e => h (by simp [e])
    have hxs : c ∉ xs := fun e => h (by simp [e])
    simp [Count, hx, ih hxs]

theorem genSplitLoop_ne_nil (fuel : Nat) (s : List Char) (c : Char) :
    genSplitLoop fuel s c ≠ [] := by
  cases fuel with
  | zero => simp [genSplitLoop]
  | succ n =>
    simp only [genSplitLoop]
    split <;> simp

theorem genSplit_ne_nil (s : List Char) (c : Char) : genSplit s c ≠ [] :=
  genSplitLoop_ne_nil _ s c

theorem genSplitLoop_glue (fuel : Nat) (s : List Char) (c : Char) (x : List Char)
    (ys : List (List Char)) (h : genSplitLoop fuel s c = x :: ys) :
    x ++ glue [c] ys = s := by
  induction fuel generalizing s x ys with
  | zero =>
    simp only [genSplitLoop, List.cons.injEq] at h
    obtain ⟨rfl, rfl⟩ := h
    simp [glue]
  | succ n ih =>
    simp only [genSplitLoop] at h
    cases hi : Index s c with
    | none =>
      simp only [hi, List.cons.injEq] at h
      obtain ⟨rfl, rfl⟩ := h
      simp [glue]
    | some m =>
      simp only [hi, List.cons.injEq] at h
      obtain ⟨rfl, rfl⟩ := h
      obtain ⟨x', ys', hxy⟩ := List.exists_cons_of_ne_nil
        (genSplitLoop_ne_nil n (List.drop (m + 1) s) c)
      have := ih _ _ _ hxy
      rw [hxy]
      simp only [glue, List.singleton_append, List.cons_append, List.append_assoc]
      rw [this]
      exact (Index_some_split hi).symm

theorem genSplit_of_not_mem {s : List Char} {c : Char} (h : c ∉ s) : genSplit s c = [s] := by
  have h0 : Count s c = 0 := Count_eq_zero h
  simp [genSplit, h0, genSplitLoop]

theorem genSplit_append_sep {k : List Char} {c : Char} (h : c ∉ k) (rest : List Char) :
    ∃ tl, genSplit (k ++ c :: rest) c = k :: tl := by
  have h1 := Count_append_sep k rest c
  have h2 := Count_le_length (k ++ c :: rest) c
  obtain ⟨n, hn⟩ : ∃ n, (if Count (k ++ c :: rest) c + 1 > (k ++ c :: rest).length + 1
      then (k ++ c :: rest).length + 1 else Count (k ++ c :: rest) c + 1) - 1 = n + 1 := by
    rw [if_neg (by omega)]
    exact ⟨Count (k ++ c :: rest) c - 1, by omega⟩
  refine ⟨genSplitLoop n ((k ++ c :: rest).drop (k.length + 1)) c, ?_⟩
  simp only [genSplit]
  rw [hn]
  simp only [genSplitLoop, Index_append_sep h rest]
  simp

theorem foldl_join_mk (sep : List Char) (ys : List (List Char)) (x : List Char) :
    (ys.map String.mk).foldl (fun b e => b ++ String.mk sep ++ e) (String.mk x)
      = String.mk (x ++ glue sep ys) := by
  induction ys generalizing x with
  | nil => simp [glue]
  | cons y ys ih =>
    simp only [List.map_cons, List.foldl_cons]
    have : String.mk x ++ String.mk sep ++ String.mk y = String.mk (x ++ sep ++ y) := by
      apply String.ext
      simp [String.data_append]
    rw [this, ih]
    simp [glue]

theorem Join_Split (h : String) : Join (Split h '.') "." = h := by
  obtain ⟨x, ys, hxy⟩ := List.exists_cons_of_ne_nil (genSplit_ne_nil h.data '.')
  have hg := genSplitLoop_glue _ _ _ _ _ hxy
  simp only [Split, hxy, List.map_cons]
  cases ys with
  | nil =>
    simp only [List.map_nil, Join]
    simp only [glue, List.append_nil] at hg
    rw [hg]
  | cons y ys =>
    simp only [List.map_cons, Join]
    have hdot : ("." : String) = String.mk ['.'] := rfl
    rw [hdot, ← List.map_cons, foldl_join_mk, hg]

theorem Split_of_no_dot {host : String} (h : '.' ∉ host.data) : Split host '.' = [host] := by
  simp [Split, genSplit_of_not_mem h]

theorem Split_key_dot_rest {key : String} (h : '.' ∉ key.data) (rest : String) :
    ∃ tl, Split (key ++ "." ++ rest) '.' = key :: tl := by
  have hd : (key ++ "." ++ rest).data = key.data ++ '.' :: rest.data := by
    simp [String.data_append]
  obtain ⟨tl, htl⟩ := genSplit_append_sep h rest.data
  exact ⟨tl.map String.mk, by simp [Split, hd, htl]⟩

theorem Split_ne_nil (host : String) : Split host '.' ≠ [] := by
  simp [Split, genSplit_ne_nil]

theorem routingKey_eq_some {host key : String} (h : routingKey host = some key) :
    ∃ tl, Split host '.' = key :: tl := by
  unfold routingKey at h
  cases hs : Split host '.' with
  | nil => simp [hs] at h
  | cons a tl =>
    simp only [hs, List.head?_cons, Option.some.injEq] at h
    exact ⟨tl, by rw [h]⟩

/-! ## Facts about `proxyHandler` used by several results -/

theorem proxyHandler_of_split {s : Server} {ns : String} {rt : RoundTripper} {r : Request}
    {key : String} {tl : List String} (h : Split r.Host '.' = key :: tl) :
    proxyHandler s ns rt r =
      Effect.logPrintf ("Incoming request for " ++ key) ::
      Effect.registryGet ns key ::
      (match s.clientset ns key with
       | some err =>
         [Effect.logPrintf ("Service " ++ key ++ " not found: " ++ err),
          Effect.httpError "Service not found" StatusNotFound]
       | none =>
         ReverseProxy.ServeHTTP
           { Target := { Scheme := "http", Host := targetURL key ns },
             ErrorHandler := proxyErrorHandler } rt r) := by
  simp only [proxyHandler, h]

theorem queries_proxyHandler {s : Server} {ns : String} {rt : RoundTripper} {r : Request}
    {key : String} {tl : List String} (h : Split r.Host '.' = key :: tl) :
    queries (proxyHandler s ns rt r) = [(ns, key)] := by
  rw [proxyHandler_of_split h]
  cases hc : s.clientset ns key with
  | some err => simp [queries]
  | none =>
    simp only [ReverseProxy.ServeHTTP]
    cases hrt : rt { Scheme := "http", Host := targetURL key ns } r with
    | ok res => simp [queries]
    | error err => simp [queries, proxyErrorHandler]

theorem forwards_proxyHandler_found {s : Server} {ns : String} {rt : RoundTripper}
    {r : Request} {key : String} {tl : List String} (h : Split r.Host '.' = key :: tl)
    (hc : s.clientset ns key = none) :
    forwards (proxyHandler s ns rt r) = [{ Scheme := "http", Host := targetURL key ns }] := by
  rw [proxyHandler_of_split h]
  simp only [hc, ReverseProxy.ServeHTTP]
  cases hrt : rt { Scheme := "http", Host := targetURL key ns } r with
  | ok res => simp [forwards]
  | error err => simp [forwards, proxyErrorHandler]

theorem httpError_400_not_mem (s : Server) (ns : String) (rt : RoundTripper) (r : Request)
    (msg : String) : Effect.httpError msg StatusBadRequest ∉ proxyHandler s ns rt r := by
  obtain ⟨key, tl, h⟩ := List.exists_cons_of_ne_nil (Split_ne_nil r.Host)
  rw [proxyHandler_of_split h]
  cases hc : s.clientset ns key with
  | some err => simp [StatusBadRequest, StatusNotFound]
  | none =>
    simp only [ReverseProxy.ServeHTTP]
    cases hrt : rt { Scheme := "http", Host := targetURL key ns } r with
    | ok res => simp
    | error err => simp [proxyErrorHandler, StatusBadRequest, StatusServiceUnavailable]

/-! ## The claims -/

/-- C1, as the code behaves: at Host `foo.example.com`, namespace `default`
and a registry that knows `foo`, `proxyHandler` makes exactly one forward
attempt, but the proxy is configured with scheme `http` and host field
`http://foo.default.svc.cluster.local:80`, so that scheme, `://` and host
read `http://http://foo.default.svc.cluster.local:80` and not
`http://foo.default.svc.cluster.local:80`. -/
theorem proxyHandler_target_repeats_scheme (rt : RoundTripper) :
    forwards (proxyHandler { clientset := fun _ _ => none } "default" rt
        { Method := "GET", Path := "/", Host := "foo.example.com", Header := [], Body := "" })
      = [{ Scheme := "http", Host := "http://foo.default.svc.cluster.local:80" }]
    ∧ URL.render { Scheme := "http", Host := "http://foo.default.svc.cluster.local:80" }
      = "http://http://foo.default.svc.cluster.local:80"
    ∧ URL.render { Scheme := "http", Host := "http://foo.default.svc.cluster.local:80" }
      ≠ "http://" ++ "foo" ++ "." ++ "default" ++ ".svc.cluster.local:80" := by
  refine ⟨?_, by decide, by decide⟩
  have h : Split "foo.example.com" '.' = "foo" :: ["example", "com"] := by decide
  rw [forwards_proxyHandler_found h rfl]
  simp only [List.cons.injEq, URL.mk.injEq, true_and, and_true]
  decide

/-- C2, as the code behaves: for a request whose Host header is the empty
string, `proxyHandler` does not answer 400 `invalid host header`; it queries
the registry once, for the empty service name. -/
theorem proxyHandler_empty_host (s : Server) (ns : String) (rt : RoundTripper)
    (m p b : String) (hd : List (String × String)) :
    Effect.httpError "invalid host header" StatusBadRequest ∉
        proxyHandler s ns rt { Method := m, Path := p, Host := "", Header := hd, Body := b }
    ∧ queries (proxyHandler s ns rt
        { Method := m, Path := p, Host := "", Header := hd, Body := b }) = [(ns, "")] := by
  refine ⟨httpError_400_not_mem _ _ _ _ _, ?_⟩
  have h : Split "" '.' = "" :: [] := by decide
  exact queries_proxyHandler h

/-- C3: whenever the registry lookup for the extracted routing key returns an
error (not-found or any other), the only thing `proxyHandler` does to the
response is `http.Error` with `Service not found` and status 404, the same
for every error, and no forward is attempted. -/
theorem proxyHandler_lookup_error (s : Server) (ns : String) (rt : RoundTripper)
    (r : Request) (key : String) (err : GoError)
    (hk : routingKey r.Host = some key) (herr : s.clientset ns key = some err) :
    responses (proxyHandler s ns rt r) = [Effect.httpError "Service not found" 404]
    ∧ forwards (proxyHandler s ns rt r) = [] := by
  obtain ⟨tl, h⟩ := routingKey_eq_some hk
  rw [proxyHandler_of_split h]
  simp [herr, responses, forwards, StatusNotFound]

theorem proxyHandler_lookup_error_witness :
    routingKey "bar.example.com" = some "bar"
    ∧ responses (proxyHandler { clientset := fun _ _ => some "not found" }
        "default" (fun _ _ => Except.error "unused")
        { Method := "GET", Path := "/", Host := "bar.example.com", Header := [], Body := "" })
      = [Effect.httpError "Service not found" 404]
    ∧ forwards (proxyHandler { clientset := fun _ _ => some "not found" }
        "default" (fun _ _ => Except.error "unused")
        { Method := "GET", Path := "/", Host := "bar.example.com", Header := [], Body := "" })
      = [] :=
  ⟨by decide, proxyHandler_lookup_error _ _ _ _ "bar" "not found"
    (by decide) rfl⟩

/-- C4: for a Host header `key ++ "." ++ rest` with `key` non-empty and free
of `.`, the first element of the split is `key`, whatever `rest` is, and
`key` is the name `proxyHandler` queries the registry with. -/
theorem routingKey_of_dotted_host (key rest : String) (hne : key ≠ "") (hdot : '.' ∉ key.data) :
    routingKey (key ++ "." ++ rest) = some key
    ∧ ∀ (s : Server) (ns : String) (rt : RoundTripper) (m p b : String)
        (hd : List (String × String)),
        queries (proxyHandler s ns rt
          { Method := m, Path := p, Host := key ++ "." ++ rest, Header := hd, Body := b })
          = [(ns, key)] := by
  have _ := hne
  obtain ⟨tl, h⟩ := Split_key_dot_rest hdot rest
  refine ⟨by simp [routingKey, h], ?_⟩
  intro s ns rt m p b hd
  exact queries_proxyHandler h

theorem routingKey_of_dotted_host_witness :
    "foo" ≠ "" ∧ '.' ∉ "foo".data
    ∧ routingKey ("foo" ++ "." ++ "example.com:8080") = some "foo"
    ∧ ∀ (s : Server) (ns : String) (rt : RoundTripper) (m p b : String)
        (hd : List (String × String)),
        queries (proxyHandler s ns rt
          { Method := m, Path := p, Host := "foo" ++ "." ++ "example.com:8080",
            Header := hd, Body := b })
          = [(ns, "foo")] :=
  ⟨by decide, by decide,
    routingKey_of_dotted_host "foo" "example.com:8080" (by decide) (by decide)⟩

/-- C5: for a Host header without any `.`, the routing key is the whole
header value; `proxyHandler` does not answer with a 400 error and goes on to
query the registry for that name. -/
theorem routingKey_of_no_dot (host : String) (hdot : '.' ∉ host.data) :
    routingKey host = some host
    ∧ ∀ (s : Server) (ns : String) (rt : RoundTripper) (m p b : String)
        (hd : List (String × String)),
        (∀ msg, Effect.httpError msg StatusBadRequest ∉ proxyHandler s ns rt
          { Method := m, Path := p, Host := host, Header := hd, Body := b })
        ∧ queries (proxyHandler s ns rt
          { Method := m, Path := p, Host := host, Header := hd, Body := b })
          = [(ns, host)] := by
  have h := Split_of_no_dot hdot
  refine ⟨by simp [routingKey, h], ?_⟩
  intro s ns rt m p b hd
  exact ⟨fun msg => httpError_400_not_mem _ _ _ _ msg, queries_proxyHandler h⟩

theorem routingKey_of_no_dot_witness :
    '.' ∉ "localhost".data
    ∧ routingKey "localhost" = some "localhost"
    ∧ ∀ (s : Server) (ns : String) (rt : RoundTripper) (m p b : String)
        (hd : List (String × String)),
        (∀ msg, Effect.httpError msg StatusBadRequest ∉ proxyHandler s ns rt
          { Method := m, Path := p, Host := "localhost", Header := hd, Body := b })
        ∧ queries (proxyHandler s ns rt
          { Method := m, Path := p, Host := "localhost", Header := hd, Body := b })
          = [(ns, "localhost")] :=
  ⟨by decide, routingKey_of_no_dot "localhost" (by decide)⟩

/-- C6: when the registry lookup succeeds and the proxy's round trip to the
configured target fails with a transport error, the installed error handler
answers `http.Error` with `service unavailable` and status 503, whatever the
error says, and `proxyHandler` runs to its end: its effects are the two log
lines, the registry query, the forward attempt and that one answer. -/
theorem proxyHandler_transport_error (s : Server) (ns : String) (rt : RoundTripper)
    (r : Request) (key : String) (err : GoError)
    (hk : routingKey r.Host = some key) (hc : s.clientset ns key = none)
    (hrt : rt { Scheme := "http", Host := targetURL key ns } r = Except.error err) :
    responses (proxyErrorHandler r err) = [Effect.httpError "service unavailable" 503]
    ∧ responses (proxyHandler s ns rt r) = [Effect.httpError "service unavailable" 503]
    ∧ proxyHandler s ns rt r =
        [Effect.logPrintf ("Incoming request for " ++ key),
         Effect.registryGet ns key,
         Effect.forward { Scheme := "http", Host := targetURL key ns } r,
         Effect.logPrintf ("Proxy error: " ++ err),
         Effect.httpError "service unavailable" 503] := by
  obtain ⟨tl, h⟩ := routingKey_eq_some hk
  rw [proxyHandler_of_split h]
  simp [hc, ReverseProxy.ServeHTTP, hrt, proxyErrorHandler, responses,
    StatusServiceUnavailable]

theorem proxyHandler_transport_error_witness :
    routingKey "baz.example.com" = some "baz"
    ∧ responses (proxyErrorHandler
        { Method := "GET", Path := "/", Host := "baz.example.com", Header := [], Body := "" }
        "connection refused") = [Effect.httpError "service unavailable" 503]
    ∧ responses (proxyHandler { clientset := fun _ _ => none } "default"
        (fun _ _ => Except.error "connection refused")
        { Method := "GET", Path := "/", Host := "baz.example.com", Header := [], Body := "" })
      = [Effect.httpError "service unavailable" 503]
    ∧ proxyHandler { clientset := fun _ _ => none } "default"
        (fun _ _ => Except.error "connection refused")
        { Method := "GET", Path := "/", Host := "baz.example.com", Header := [], Body := "" }
      = [Effect.logPrintf ("Incoming request for " ++ "baz"),
         Effect.registryGet "default" "baz",
         Effect.forward { Scheme := "http", Host := targetURL "baz" "default" }
           { Method := "GET", Path := "/", Host := "baz.example.com", Header := [],
             Body := "" },
         Effect.logPrintf ("Proxy error: " ++ "connection refused"),
         Effect.httpError "service unavailable" 503] :=
  ⟨by decide, proxyHandler_transport_error { clientset := fun _ _ => none } "default"
    (fun _ _ => Except.error "connection refused")
    { Method := "GET", Path := "/", Host := "baz.example.com", Header := [], Body := "" }
    "baz" "connection refused" (by decide) rfl rfl⟩

/-- C7, as the code behaves: for the empty Host header and for the Host
header `.example.com` the routing key is the empty string, and `proxyHandler`
queries the registry with that empty name instead of failing before the
query. -/
theorem proxyHandler_empty_routing_key (s : Server) (ns : String) (rt : RoundTripper)
    (m p b : String) (hd : List (String × String)) :
    (routingKey "" = some ""
      ∧ proxyHandler s ns rt { Method := m, Path := p, Host := "", Header := hd, Body := b }
          ≠ [Effect.httpError "invalid host header" StatusBadRequest]
      ∧ Effect.registryGet ns "" ∈
          proxyHandler s ns rt { Method := m, Path := p, Host := "", Header := hd, Body := b })
    ∧ (routingKey ".example.com" = some ""
      ∧ queries (proxyHandler s ns rt
          { Method := m, Path := p, Host := ".example.com", Header := hd, Body := b })
        = [(ns, "")]) := by
  have h00 : Split "" '.' = "" :: [] := by decide
  have h0 : Split (Request.Host
      { Method := m, Path := p, Host := "", Header := hd, Body := b }) '.' = "" :: [] := h00
  have h1 : Split ".example.com" '.' = "" :: ["example", "com"] := by decide
  refine ⟨⟨by decide, ?_, ?_⟩, by decide, queries_proxyHandler h1⟩
  · rw [proxyHandler_of_split h0]
    simp
  · rw [proxyHandler_of_split h0]
    simp

/-- C8: for a request whose Host header yields the routing key `key`,
`proxyHandler` queries the registry exactly once, for the service name `key`
in the configured namespace `ns`; and when that lookup succeeds, the one
forward that follows has the host field
`"http://" ++ key ++ "." ++ ns ++ ".svc.cluster.local:80"`, built from the
same key and the same namespace value as the query. -/
theorem proxyHandler_one_query (s : Server) (ns : String) (rt : RoundTripper)
    (r : Request) (key : String) (hk : routingKey r.Host = some key) :
    queries (proxyHandler s ns rt r) = [(ns, key)]
    ∧ (s.clientset ns key = none →
        forwards (proxyHandler s ns rt r)
          = [{ Scheme := "http",
               Host := "http://" ++ key ++ "." ++ ns ++ ".svc.cluster.local:80" }]) := by
  obtain ⟨tl, h⟩ := routingKey_eq_some hk
  refine ⟨queries_proxyHandler h, fun hc => ?_⟩
  rw [forwards_proxyHandler_found h hc]
  simp only [targetURL]

theorem proxyHandler_one_query_witness :
    routingKey "foo.example.com" = some "foo"
    ∧ queries (proxyHandler { clientset := fun _ _ => none } "prod"
        (fun _ _ => Except.ok { StatusCode := 200, Body := "ok" })
        { Method := "POST", Path := "/x", Host := "foo.example.com", Header := [],
          Body := "payload" })
      = [("prod", "foo")]
    ∧ forwards (proxyHandler { clientset := fun _ _ => none } "prod"
        (fun _ _ => Except.ok { StatusCode := 200, Body := "ok" })
        { Method := "POST", Path := "/x", Host := "foo.example.com", Header := [],
          Body := "payload" })
      = [{ Scheme := "http", Host := "http://foo.prod.svc.cluster.local:80" }] :=
  ⟨by decide,
   (proxyHandler_one_query { clientset := fun _ _ => none } "prod"
      (fun _ _ => Except.ok { StatusCode := 200, Body := "ok" })
      { Method := "POST", Path := "/x", Host := "foo.example.com", Header := [],
        Body := "payload" } "foo" (by decide)).1,
   (proxyHandler_one_query { clientset := fun _ _ => none } "prod"
      (fun _ _ => Except.ok { StatusCode := 200, Body := "ok" })
      { Method := "POST", Path := "/x", Host := "foo.example.com", Header := [],
        Body := "payload" } "foo" (by decide)).2 rfl⟩

/-- C9: for every request and every state of the registry, `healthHandler`
writes status 200 and then the body `healthy`, and nothing else: it makes no
registry query and no forward attempt. -/
theorem healthHandler_always_healthy (s : Server) (r : Request) :
    healthHandler s r = [Effect.writeHeader 200, Effect.write "healthy"]
    ∧ responses (healthHandler s r) = [Effect.writeHeader 200, Effect.write "healthy"]
    ∧ queries (healthHandler s r) = []
    ∧ forwards (healthHandler s r) = [] := by
  simp [healthHandler, responses, queries, forwards, StatusOK]

/-- C10: for every Host string `h`, `strings.Split(h, ".")` has at least one
element and joining it with `.` gives `h` back; so `parts[0]` exists, and the
branch of `proxyHandler` that answers 400 `invalid host header` is taken for
no request. -/
theorem Split_host_nonempty (h : String) :
    1 ≤ (Split h '.').length
    ∧ Join (Split h '.') "." = h
    ∧ (routingKey h).isSome = true
    ∧ ∀ (s : Server) (ns : String) (rt : RoundTripper) (m p b : String)
        (hd : List (String × String)),
        proxyHandler s ns rt { Method := m, Path := p, Host := h, Header := hd, Body := b }
          ≠ [Effect.httpError "invalid host header" StatusBadRequest] := by
  obtain ⟨key, tl, hs⟩ := List.exists_cons_of_ne_nil (Split_ne_nil h)
  refine ⟨by simp [hs], Join_Split h, by simp [routingKey, hs], ?_⟩
  intro s ns rt m p b hd
  have hs' : Split (Request.Host
      { Method := m, Path := p, Host := h, Header := hd, Body := b }) '.' = key :: tl := hs
  rw [proxyHandler_of_split hs']
  simp

end K8AutoDns
